import Mathlib

/-!
Verification of the wldd-rs dependency lister (src/lib.rs, src/main.rs).

The filesystem is modelled as a function from paths to entry kinds; directory
and file paths are strings.  `dir.join(dep).is_file()` in the Rust source
becomes `(fs dir dep).is_file` here, where `fs : String → String → FsEntry`
describes what the joined path refers to.  Rust's `Path::is_file` follows
symlinks and is true exactly when the path resolves to a regular file.
-/

namespace Wldd

/-- Kind of filesystem entry a joined path `dir/dep` refers to.  This models
what the OS reports for `dir.join(dep)`: a regular file, a directory, a
symlink that resolves to a file or to a directory, a dangling symlink, or
nothing at all. -/
inductive FsEntry where
  | file
  | directory
  | symlinkToFile
  | symlinkToDir
  | danglingSymlink
  | missing
deriving DecidableEq, Repr

/-- Model of Rust `Path::is_file` on a filesystem entry: true exactly when the
path exists and resolves (following symlinks) to a regular file. -/
def FsEntry.is_file : FsEntry → Bool
  | .file => true
  | .symlinkToFile => true
  | _ => false

/-- A filesystem view for the resolver: `fs dir dep` is the entry that
`dir.join(dep)` refers to. -/
abbrev Fs : Type := String → String → FsEntry

/-- `max_len` from `check_dependencies` (src/lib.rs line 175):
`deps.iter().map(|d| d.len()).max().unwrap_or(0)`.  Dependency names are
printable ASCII, so byte length and character length coincide. -/
def max_len (deps : List String) : Nat :=
  deps.foldl (fun m d => Nat.max m d.length) 0

/-- Left-aligned space padding, the behaviour of Rust `format!("{:width$}", s)`
for strings: pad on the right with spaces up to `w`, never truncate. -/
def padRight (s : String) (w : Nat) : String :=
  s ++ String.mk (List.replicate (w - s.length) ' ')

/-- The inner loop of `check_dependencies` (src/lib.rs lines 177-192) for one
dependency `dep`: walk `dirs` in order carrying the `found` flag; each
directory whose join with `dep` is a regular file produces one printed line
(the first with the dependency name, later ones with a blank name field), and
if no directory matched, a single "Not found" line is printed. -/
def dep_lines (fs : Fs) (width : Nat) (dep : String) :
    List String → Bool → List String
  | [], found =>
    if found then [] else ["\t" ++ padRight dep width ++ " => Not found"]
  | dir :: rest, found =>
    if (fs dir dep).is_file then
      (if found then
        "\t" ++ padRight "" width ++ " => " ++ dir
      else
        "\t" ++ padRight dep width ++ " => " ++ dir) :: dep_lines fs width dep rest true
    else
      dep_lines fs width dep rest found

/-- `check_dependencies` (src/lib.rs lines 174-194): the full sequence of
stdout lines printed for `deps` against search directories `dirs`. -/
def check_dependencies (fs : Fs) (deps : List String) (dirs : List String) :
    List String :=
  (deps.map (fun dep => dep_lines fs (max_len deps) dep dirs false)).flatten

/-- The ordered list of directories in `dirs` whose join with `dep` is a
regular file: the `matches` field of the spec's ResolutionRecord, as computed
by the directory loop of `check_dependencies`. -/
def dep_matches (fs : Fs) (dep : String) (dirs : List String) : List String :=
  dirs.filter (fun dir => (fs dir dep).is_file)

/-- The resolver output as a record sequence: one `(dependency, matches)` pair
per element of `deps`, in order.  This is the ResolutionRecord view of the
loop in `check_dependencies`; `check_eq_render` below proves the printed
output is exactly this sequence rendered. -/
def resolve (fs : Fs) (deps : List String) (dirs : List String) :
    List (String × List String) :=
  deps.map (fun dep => (dep, dep_matches fs dep dirs))

/-- Rendering of one resolution record as printed lines: one line per match
(first line carries the padded dependency name, the rest a blank name field),
or a single "Not found" line when there are no matches. -/
def render (w : Nat) (dep : String) : List String → List String
  | [] => ["\t" ++ padRight dep w ++ " => Not found"]
  | d :: ds =>
    ("\t" ++ padRight dep w ++ " => " ++ d) ::
      ds.map (fun dir => "\t" ++ padRight "" w ++ " => " ++ dir)

/-! ### Image parser

The PE parsing itself is performed by the external `goblin` crate
(`pe::PE::parse`, src/lib.rs line 153), whose sources are not part of this
repository; only its caller `get_pe_dependencies` is.  The parser below is
modelled from the spec.  Bytes are naturals below 256; multi-byte fields are
little-endian. -/

/-- Modelled from the spec: the parse-error kinds of §4.1/§7 of the spec
(`BadSignature`, `Truncated`, `UnsupportedFormat`, `BadRva`), which belong to
the goblin image parser absent from this repository's sources. -/
inductive ParseError where
  | badSignature
  | truncated
  | unsupportedFormat
  | badRva
deriving DecidableEq, Repr

/-- Modelled from the spec: a human-readable message for a parse error, the
analogue of `e.to_string()` on the absent parser's error (src/lib.rs line
153).  The exact text is unspecified; only that each kind renders to some
string matters to the callers. -/
def ParseError.toString : ParseError → String
  | .badSignature => "bad signature"
  | .truncated => "truncated"
  | .unsupportedFormat => "unsupported format"
  | .badRva => "bad rva"

/-- Read one byte (bounds-checked). -/
def readU8 (b : List Nat) (i : Nat) : Option Nat := b.get? i

/-- Read a little-endian 16-bit field (bounds-checked). -/
def readU16 (b : List Nat) (i : Nat) : Option Nat :=
  match b.get? i, b.get? (i + 1) with
  | some x, some y => some (x + 256 * y)
  | _, _ => none

/-- Read a little-endian 32-bit field (bounds-checked). -/
def readU32 (b : List Nat) (i : Nat) : Option Nat :=
  match readU16 b i, readU16 b (i + 2) with
  | some x, some y => some (x + 65536 * y)
  | _, _ => none

/-- Modelled from the spec: the transient header scalars of §4.1 steps 1-6
(RawHeaderFields) that later steps need. -/
structure Headers where
  nsections : Nat
  sec_off : Nat
  import_va : Nat
  import_size : Nat
deriving DecidableEq, Repr

/-- Modelled from the spec: §4.1 steps 1-6 of the absent image parser.
Validate the 64-byte legacy header and its "MZ" marker (failure:
`badSignature`); read the 4-byte modern-header offset at 0x3C and bounds-check
it (failure: `truncated`); validate the "PE\0\0" marker (failure:
`badSignature`); read section count and optional-header size from the
fixed-size file header; read the optional-header magic selecting the 32-bit
(0x10B) or 64-bit (0x20B) layout, which places the data-directory array at
offset 96 or 112 of the optional header (unknown magic:
`unsupportedFormat`); read the import directory As (virtual address, size)
from data-directory entry index 1. -/
def parse_headers (b : List Nat) : Except ParseError Headers :=
  if b.length < 64 then .error .badSignature
  else
    match readU16 b 0 with
    | none => .error .badSignature
    | some sig =>
      if sig ≠ 0x5A4D then .error .badSignature
      else
        match readU32 b 0x3C with
        | none => .error .truncated
        | some peOff =>
          if b.length < peOff + 24 then .error .truncated
          else
            match readU32 b peOff, readU16 b (peOff + 6), readU16 b (peOff + 20) with
            | some peSig, some nsec, some optSize =>
              if peSig ≠ 0x4550 then .error .badSignature
              else
                match readU16 b (peOff + 24) with
                | none => .error .truncated
                | some magic =>
                  if magic = 0x10B ∨ magic = 0x20B then
                    let ddOff := peOff + 24 + (if magic = 0x10B then 96 else 112)
                    match readU32 b (ddOff + 8), readU32 b (ddOff + 12) with
                    | some va, some size =>
                      .ok { nsections := nsec, sec_off := peOff + 24 + optSize,
                            import_va := va, import_size := size }
                    | _, _ => .error .truncated
                  else .error .unsupportedFormat
            | _, _, _ => .error .truncated

/-- Modelled from the spec: a SectionDescriptor (§3) — the four scalars used
to translate virtual addresses to file offsets. -/
structure SectionDescriptor where
  va : Nat
  vsize : Nat
  raw_off : Nat
  raw_size : Nat
deriving DecidableEq, Repr

/-- Modelled from the spec: §4.1 step 7 — read `n` fixed-size (40-byte)
section records starting at `off`; each gives virtual size (+8), virtual
address (+12), raw-data size (+16) and raw-data file offset (+20).  Any read
past the buffer is `truncated`. -/
def parse_sections (b : List Nat) : Nat → Nat → Except ParseError (List SectionDescriptor)
  | _, 0 => .ok []
  | off, n + 1 =>
    match readU32 b (off + 8), readU32 b (off + 12), readU32 b (off + 16),
        readU32 b (off + 20) with
    | some vs, some va, some rs, some ro =>
      match parse_sections b (off + 40) n with
      | .ok rest => .ok ({ va := va, vsize := vs, raw_off := ro, raw_size := rs } :: rest)
      | .error e => .error e
    | _, _, _, _ => .error .truncated

/-- Modelled from the spec: §4.1 step 8 — scan the section descriptors for one
whose `[va, va + vsize)` contains the RVA; translate into
`raw_off + (rva - va)`; no containing section is `badRva`. -/
def rva_to_offset (secs : List SectionDescriptor) (rva : Nat) : Except ParseError Nat :=
  match secs.find? (fun s => s.va ≤ rva && rva < s.va + s.vsize) with
  | some s => .ok (s.raw_off + (rva - s.va))
  | none => .error .badRva

/-- Modelled from the spec: §4.1 step 10 — read a null-terminated byte string
at `i`, bounds-checked; running past the buffer (fuel exhausted or read out of
bounds) is `truncated`. -/
def read_cstring (b : List Nat) : Nat → Nat → Except ParseError (List Nat)
  | _, 0 => .error .truncated
  | i, fuel + 1 =>
    match b.get? i with
    | none => .error .truncated
    | some 0 => .ok []
    | some c =>
      match read_cstring b (i + 1) fuel with
      | .ok rest => .ok (c :: rest)
      | .error e => .error e

/-- Modelled from the spec: §4.1 steps 9-11 — read 20-byte import descriptors
from `off`, stopping at the first all-zero record (the authoritative
sentinel); the loop is bounded by remaining buffer length (fuel), and a run
that leaves the buffer without reaching the sentinel is `truncated`.  Each
descriptor's name RVA (at +12) is translated via the sections and its
null-terminated name decoded. -/
def parse_imports (b : List Nat) (secs : List SectionDescriptor) :
    Nat → Nat → Except ParseError (List String)
  | _, 0 => .error .truncated
  | off, fuel + 1 =>
    if b.length < off + 20 then .error .truncated
    else if (List.range 20).all (fun j => b.getD (off + j) 0 == 0) then .ok []
    else
      match readU32 b (off + 12) with
      | none => .error .truncated
      | some nameRva =>
        match rva_to_offset secs nameRva with
        | .error e => .error e
        | .ok nameOff =>
          match read_cstring b nameOff (b.length + 1) with
          | .error e => .error e
          | .ok cs =>
            match parse_imports b secs (off + 20) fuel with
            | .ok rest => .ok (String.mk (cs.map Char.ofNat) :: rest)
            | .error e => .error e

/-- Modelled from the spec: the Image Parser contract of §4.1,
`parse(bytes) -> Result<DependencyList, ParseError>` (implemented in the
repository by the absent goblin crate).  After the headers, an import
directory with virtual address 0 or size 0 yields the empty dependency list
(§4.1 step 6); otherwise the sections are read, the import directory RVA is
translated, and the descriptor run is decoded. -/
def parse (b : List Nat) : Except ParseError (List String) :=
  match parse_headers b with
  | .error e => .error e
  | .ok h =>
    if h.import_va = 0 ∨ h.import_size = 0 then .ok []
    else
      match parse_sections b h.sec_off h.nsections with
      | .error e => .error e
      | .ok secs =>
        match rva_to_offset secs h.import_va with
        | .error e => .error e
        | .ok off => parse_imports b secs off (b.length / 20 + 1)

/-! ### Errors, validation and the run loop (src/lib.rs lines 48-137) -/

/-- `WlddError` (src/lib.rs lines 48-65): the crate's error type.  The I/O
error and the parse error carry only a message string (`PeParseError(String)`
wraps `e.to_string()` of the parser's error). -/
inductive WlddError where
  | ioError (msg : String)
  | fileError (msg : String)
  | invalidDirectory (msg : String)
  | peParseError (msg : String)
deriving DecidableEq, Repr

/-- The constructor tag of a `WlddError`, used to state which variant an error
value is. -/
inductive WlddErrorKind where
  | ioError
  | fileError
  | invalidDirectory
  | peParseError
deriving DecidableEq, Repr

/-- Classifies a `WlddError` by its constructor. -/
def WlddError.kind : WlddError → WlddErrorKind
  | .ioError _ => .ioError
  | .fileError _ => .fileError
  | .invalidDirectory _ => .invalidDirectory
  | .peParseError _ => .peParseError

/-- The world a `run` invocation observes: what the filesystem answers for
each query the program makes.  `path_exists` and `path_is_file` model
`file.exists()` and `file.is_file()` on input files; `dir_exists` and
`dir_is_dir` the same for search directories; `file_bytes` models opening and
memory-mapping a file (an I/O failure carries its message); `entry` is the
resolver's view of `dir.join(dep)`. -/
structure World where
  dir_exists : String → Bool
  dir_is_dir : String → Bool
  path_exists : String → Bool
  path_is_file : String → Bool
  file_bytes : String → Except String (List Nat)
  entry : Fs

/-- `Config` (src/lib.rs lines 37-45): search directories and input files. -/
structure Config where
  dirs : List String
  files : List String

/-- An observable output line: `println!` goes to stdout, `eprintln!` to
stderr. -/
inductive Out where
  | outLine (s : String)
  | errLine (s : String)
deriving DecidableEq, Repr

/-- `validate_file` (src/lib.rs lines 113-121): a missing path or a
non-regular file is a `FileError`. -/
def validate_file (w : World) (f : String) : Option WlddError :=
  if ¬ w.path_exists f then
    some (.fileError (f ++ ": No such file or directory"))
  else if ¬ w.path_is_file f then
    some (.fileError (f ++ ": not regular file"))
  else none

/-- `validate_dir` (src/lib.rs lines 131-137): a missing path or a
non-directory is an `InvalidDirectory` carrying the displayed path. -/
def validate_dir (w : World) (d : String) : Option WlddError :=
  if ¬ w.dir_exists d ∨ ¬ w.dir_is_dir d then
    some (.invalidDirectory d)
  else none

/-- The first loop of `run` (src/lib.rs lines 85-87): validate every search
directory, propagating the first failure. -/
def validate_dirs (w : World) : List String → Option WlddError
  | [] => none
  | d :: ds =>
    match validate_dir w d with
    | some e => some e
    | none => validate_dirs w ds

/-- `get_pe_dependencies` (src/lib.rs lines 150-162): open and map the file
(I/O failure propagates as `IoError`), parse it (a parse failure is wrapped as
`PeParseError` of the parser error's message), and collect the imported
library names. -/
def get_pe_dependencies (w : World) (f : String) : Except WlddError (List String) :=
  match w.file_bytes f with
  | .error msg => .error (.ioError msg)
  | .ok b =>
    match parse b with
    | .ok deps => .ok deps
    | .error e => .error (.peParseError e.toString)

/-- The per-file prefix of the `run` loop body (src/lib.rs lines 90-92):
`validate_file(file)?` then `get_pe_dependencies(file)?`. -/
def file_step (w : World) (f : String) : Except WlddError (List String) :=
  match validate_file w f with
  | some e => .error e
  | none => get_pe_dependencies w f

/-- The file loop of `run` (src/lib.rs lines 89-100): for each file validate
and parse (the first error aborts the run), report "not a dynamic executable"
on stderr when the dependency list is empty, otherwise print the file name and
the `check_dependencies` report on stdout. -/
def process_files (w : World) (dirs : List String) : List String → List Out × Option WlddError
  | [] => ([], none)
  | f :: fs =>
    match file_step w f with
    | .error e => ([], some e)
    | .ok deps =>
      if deps.isEmpty then
        let r := process_files w dirs fs
        (.errLine (f ++ ": not a dynamic executable") :: r.1, r.2)
      else
        let r := process_files w dirs fs
        (.outLine (f ++ ":") ::
          ((check_dependencies w.entry deps dirs).map .outLine ++ r.1), r.2)

/-- `run` (src/lib.rs lines 84-103): validate every search directory first,
then process the files; the result pairs the produced output lines with the
error that aborted the run, if any (`none` models `Ok(())`). -/
def run (w : World) (cfg : Config) : List Out × Option WlddError :=
  match validate_dirs w cfg.dirs with
  | some e => ([], some e)
  | none => process_files w cfg.dirs cfg.files

/-! ### Concrete instances used to witness the theorems -/

/-- The filesystem of the spec's resolution example: `A.dll` is a regular file
in directories `d1` and `d3`, and nothing else exists. -/
def exampleFs : Fs := fun dir dep =>
  if dep = "A.dll" ∧ (dir = "d1" ∨ dir = "d3") then .file else .missing

/-- A filesystem agreeing with `exampleFs` on the example's directories but
differing elsewhere. -/
def exampleFs2 : Fs := fun dir dep =>
  if dir = "elsewhere" then .directory else exampleFs dir dep

/-- A filesystem in which every joined path is a directory. -/
def dirOnlyFs : Fs := fun _ _ => .directory

/-- A minimal 200-byte image: a legacy header with the "MZ" marker and
modern-header offset 64, the "PE\0\0" marker at 64, a zero file header, the
32-bit optional-header magic 0x10B at 88, and an all-zero data directory, so
the import-directory virtual address and size are both 0. -/
def c3bytes : List Nat :=
  (List.range 200).map (fun i =>
    if i = 0 then 0x4D else if i = 1 then 0x5A
    else if i = 0x3C then 64
    else if i = 64 then 0x50 else if i = 65 then 0x45
    else if i = 88 then 0x0B else if i = 89 then 0x01
    else 0)

/-- A two-byte buffer: too short to hold a legacy header. -/
def badSigBytes : List Nat := [0, 0]

/-- A 64-byte buffer with a valid legacy header whose modern-header offset
(100) points past the end of the buffer. -/
def truncBytes : List Nat :=
  (List.range 64).map (fun i =>
    if i = 0 then 0x4D else if i = 1 then 0x5A
    else if i = 0x3C then 100 else 0)

/-- A world with no search directories needed, in which every path exists and
is a regular file whose bytes are `c3bytes` (an image with no imports). -/
def c3world : World where
  dir_exists := fun _ => true
  dir_is_dir := fun _ => true
  path_exists := fun _ => true
  path_is_file := fun _ => true
  file_bytes := fun _ => .ok c3bytes
  entry := fun _ _ => .missing

/-- A world serving `badSigBytes` for the file "bad.exe" and `truncBytes` for
every other file. -/
def errWorld : World where
  dir_exists := fun _ => true
  dir_is_dir := fun _ => true
  path_exists := fun _ => true
  path_is_file := fun _ => true
  file_bytes := fun f => if f = "bad.exe" then .ok badSigBytes else .ok truncBytes
  entry := fun _ _ => .missing

/-- A world in which the directory "x" does not exist. -/
def badDirWorld : World where
  dir_exists := fun d => d ≠ "x"
  dir_is_dir := fun _ => true
  path_exists := fun _ => true
  path_is_file := fun _ => true
  file_bytes := fun _ => .ok c3bytes
  entry := fun _ _ => .missing

/-- A world in which "bad.exe" does not exist and every other path is a
regular file containing `c3bytes`. -/
def abortWorld : World where
  dir_exists := fun _ => true
  dir_is_dir := fun _ => true
  path_exists := fun f => f ≠ "bad.exe"
  path_is_file := fun _ => true
  file_bytes := fun _ => .ok c3bytes
  entry := fun _ _ => .missing

/-! ### Helper lemmas -/

/-- Once the `found` flag is set, the remaining directory loop prints exactly
one blank-name line per further matching directory. -/
theorem dep_lines_found (fs : Fs) (w : Nat) (dep : String) (dirs : List String) :
    dep_lines fs w dep dirs true =
      (dep_matches fs dep dirs).map
        (fun dir => "\t" ++ padRight "" w ++ " => " ++ dir) := by
  induction dirs with
  | nil => simp [dep_lines, dep_matches]
  | cons d rest ih =>
    by_cases h : (fs d dep).is_file
    · simp [dep_lines, dep_matches, h, List.filter_cons, ih]
    · simp [dep_lines, dep_matches, h, List.filter_cons, ih]

/-- The directory loop of `check_dependencies` for one dependency prints
exactly the rendering of that dependency's match list. -/
theorem dep_lines_eq_render (fs : Fs) (w : Nat) (dep : String) (dirs : List String) :
    dep_lines fs w dep dirs false = render w dep (dep_matches fs dep dirs) := by
  induction dirs with
  | nil => simp [dep_lines, dep_matches, render]
  | cons d rest ih =>
    by_cases h : (fs d dep).is_file
    · simp [dep_lines, dep_matches, h, List.filter_cons, render, dep_lines_found]
    · simpa [dep_lines, dep_matches, h, List.filter_cons] using ih

/-- The whole printed report is the flattening of the rendered resolution
records. -/
theorem check_eq_render (fs : Fs) (deps : List String) (dirs : List String) :
    check_dependencies fs deps dirs =
      ((resolve fs deps dirs).map
        (fun r => render (max_len deps) r.1 r.2)).flatten := by
  simp [check_dependencies, resolve, List.map_map, Function.comp_def,
    dep_lines_eq_render]

/-- The fold computing `max_len` only grows its accumulator. -/
theorem max_len_init_le (deps : List String) (a : Nat) :
    a ≤ deps.foldl (fun m d => Nat.max m d.length) a := by
  induction deps generalizing a with
  | nil => simp
  | cons d rest ih =>
    exact le_trans (Nat.le_max_left a d.length) (ih (Nat.max a d.length))

/-- A member's length is bounded by the `max_len` fold from any starting
accumulator. -/
theorem length_le_foldl_max (deps : List String) (dep : String) (a : Nat)
    (h : dep ∈ deps) :
    dep.length ≤ deps.foldl (fun m d => Nat.max m d.length) a := by
  induction deps generalizing a with
  | nil => cases h
  | cons d rest ih =>
    rcases List.mem_cons.mp h with h1 | h1
    · subst h1
      exact le_trans (Nat.le_max_right a dep.length) (max_len_init_le rest _)
    · exact ih _ h1

/-- Every dependency name is at most as long as `max_len` of its list. -/
theorem length_le_max_len (deps : List String) (dep : String) (h : dep ∈ deps) :
    dep.length ≤ max_len deps :=
  length_le_foldl_max deps dep 0 h

/-- Padding a string no longer than the field width yields exactly the field
width. -/
theorem padRight_length (s : String) (w : Nat) (h : s.length ≤ w) :
    (padRight s w).length = w := by
  simp [padRight, String.length_append]
  omega

/-- `dep_matches` only looks at the filesystem entries of the listed
directories joined with the given dependency. -/
theorem dep_matches_congr (fs1 fs2 : Fs) (dep : String) (dirs : List String)
    (h : ∀ dir ∈ dirs, fs1 dir dep = fs2 dir dep) :
    dep_matches fs1 dep dirs = dep_matches fs2 dep dirs := by
  unfold dep_matches
  induction dirs with
  | nil => rfl
  | cons d rest ih =>
    have hd := h d (List.mem_cons_self d rest)
    simp [List.filter_cons, hd, ih (fun dir hdir => h dir (List.mem_cons_of_mem d hdir))]

/-- A failing `validate_dir` always produces the `InvalidDirectory` variant
carrying the directory's path. -/
theorem validate_dir_fail (w : World) (d : String) (e : WlddError)
    (h : validate_dir w d = some e) : e = .invalidDirectory d := by
  unfold validate_dir at h
  split at h
  · exact (Option.some.inj h).symm
  · exact Option.noConfusion h

/-- If some listed directory fails validation, the directory loop fails with
an `InvalidDirectory` error. -/
theorem validate_dirs_fail (w : World) (dirs : List String) (d : String)
    (hmem : d ∈ dirs) (hfail : validate_dir w d ≠ none) :
    (validate_dirs w dirs).map WlddError.kind = some .invalidDirectory := by
  induction dirs with
  | nil => cases hmem
  | cons d0 rest ih =>
    match he : validate_dir w d0 with
    | some e =>
      have := validate_dir_fail w d0 e he
      subst this
      simp [validate_dirs, he, WlddError.kind]
    | none =>
      rcases List.mem_cons.mp hmem with h1 | h1
      · subst h1
        exact absurd he hfail
      · simpa [validate_dirs, he] using ih h1

/-- If every file before `f` steps through successfully and `f` fails, the
file loop stops at `f`: it keeps the earlier files' output, reports `f`'s
error, and never looks past `f`. -/
theorem process_files_stops (w : World) (dirs : List String) (pre : List String)
    (f : String) (rest : List String) (e : WlddError)
    (hok : ∀ g ∈ pre, ∃ ds, file_step w g = .ok ds)
    (hf : file_step w f = .error e) :
    process_files w dirs (pre ++ f :: rest) =
      ((process_files w dirs pre).1, some e) := by
  induction pre with
  | nil => simp [process_files, hf]
  | cons g gs ih =>
    obtain ⟨ds, hg⟩ := hok g (List.mem_cons_self g gs)
    have ih2 := ih (fun g2 h2 => hok g2 (List.mem_cons_of_mem g h2))
    by_cases hds : ds.isEmpty
    · simp [process_files, hg, hds, ih2]
    · simp [process_files, hg, hds, ih2]

/-! ### Claim theorems -/

/-- Claim C1: for every dependency and ordered directory list, the resolver
records, in the caller-supplied order, every directory whose join with the
dependency's exact name is an existing regular file, and does not stop at the
first match; in particular, for dependencies ["A.dll", "B.dll"] and
directories [d1, d2, d3] with A.dll a regular file in d1 and d3 and B.dll
nowhere, the result is A.dll -> [d1, d3] and B.dll -> [], in dependency
order. -/
theorem all_matches_recorded_in_order :
    (∀ (fs : Fs) (w : Nat) (dep : String) (dirs : List String),
      dep_lines fs w dep dirs false = render w dep (dep_matches fs dep dirs)) ∧
    (∀ (fs : Fs) (dep : String) (dirs : List String),
      (dep_matches fs dep dirs).Sublist dirs) ∧
    (∀ (fs : Fs) (dep : String) (dirs : List String) (dir : String),
      dir ∈ dirs → (fs dir dep).is_file = true →
      dir ∈ dep_matches fs dep dirs) ∧
    resolve exampleFs ["A.dll", "B.dll"] ["d1", "d2", "d3"] =
      [("A.dll", ["d1", "d3"]), ("B.dll", [])] := by
  refine ⟨dep_lines_eq_render, ?_, ?_, by decide⟩
  · intro fs dep dirs
    exact List.filter_sublist dirs
  · intro fs dep dirs dir hmem hfile
    unfold dep_matches
    exact List.mem_filter.mpr ⟨hmem, hfile⟩

/-- Witness for C1 at a concrete input: d3, a later match after d1, is still
recorded for A.dll. -/
theorem all_matches_recorded_in_order_witness :
    "d3" ∈ dep_matches exampleFs "A.dll" ["d1", "d2", "d3"] :=
  all_matches_recorded_in_order.2.2.1 exampleFs "A.dll" ["d1", "d2", "d3"] "d3"
    (by decide) (by decide)

/-- Claim C2: resolution produces exactly one record per element of `deps`,
in the same order as `deps`; a repeated name yields one record per
occurrence, each occurrence re-resolved independently with no caching. -/
theorem one_record_per_dependency :
    ∀ (fs : Fs) (deps dirs : List String),
      (resolve fs deps dirs).map Prod.fst = deps ∧
      (resolve fs deps dirs).length = deps.length ∧
      (∀ deps2, resolve fs (deps ++ deps2) dirs =
        resolve fs deps dirs ++ resolve fs deps2 dirs) ∧
      (∀ i : Nat, (resolve fs deps dirs)[i]? =
        (deps[i]?).map (fun d => (d, dep_matches fs d dirs))) := by
  intro fs deps dirs
  refine ⟨?_, by simp [resolve], by simp [resolve], ?_⟩
  · simp [resolve, List.map_map, Function.comp_def]
  · intro i
    simp [resolve, List.getElem?_map]

/-- Claim C5: a directory is recorded as a match only when its join with the
dependency's exact name refers to an existing regular file; a directory
entry that is itself a directory, a dangling symlink, or missing is never
recorded. -/
theorem only_regular_files_match :
    ∀ (fs : Fs) (dep : String) (dirs : List String) (dir : String),
      (dir ∈ dep_matches fs dep dirs → (fs dir dep).is_file = true) ∧
      (fs dir dep = .directory → dir ∉ dep_matches fs dep dirs) ∧
      (fs dir dep = .danglingSymlink → dir ∉ dep_matches fs dep dirs) ∧
      (fs dir dep = .missing → dir ∉ dep_matches fs dep dirs) := by
  intro fs dep dirs dir
  have hmem : dir ∈ dep_matches fs dep dirs → (fs dir dep).is_file = true :=
    fun h => (List.mem_filter.mp h).2
  refine ⟨hmem, ?_, ?_, ?_⟩ <;>
    · intro he hm
      have := hmem hm
      rw [he] at this
      simp [FsEntry.is_file] at this

/-- Witness for C5 at a concrete input: a directory entry that is a directory
named like the dependency is not matched. -/
theorem only_regular_files_match_witness :
    "d1" ∉ dep_matches dirOnlyFs "A.dll" ["d1"] :=
  (only_regular_files_match dirOnlyFs "A.dll" ["d1"] "d1").2.1 rfl

/-- Claim C7: the resolver is deterministic with no hidden state — its record
sequence and the printed report depend only on the dependency list, the
directory list, and the filesystem entries of the queried joined paths, so
re-resolving against an unchanged filesystem yields identical output. -/
theorem resolver_deterministic :
    ∀ (fs1 fs2 : Fs) (deps dirs : List String),
      (∀ dir ∈ dirs, ∀ dep ∈ deps, fs1 dir dep = fs2 dir dep) →
      resolve fs1 deps dirs = resolve fs2 deps dirs ∧
      check_dependencies fs1 deps dirs = check_dependencies fs2 deps dirs := by
  intro fs1 fs2 deps dirs h
  have hres : resolve fs1 deps dirs = resolve fs2 deps dirs := by
    unfold resolve
    apply List.map_congr_left
    intro d hd
    rw [dep_matches_congr fs1 fs2 d dirs (fun dir hdir => h dir hdir d hd)]
  refine ⟨hres, ?_⟩
  rw [check_eq_render, check_eq_render, hres]

/-- Witness for C7 at a concrete input: a filesystem differing only outside
the queried paths yields identical records and identical report. -/
theorem resolver_deterministic_witness :
    resolve exampleFs ["A.dll", "B.dll"] ["d1", "d2", "d3"] =
      resolve exampleFs2 ["A.dll", "B.dll"] ["d1", "d2", "d3"] ∧
    check_dependencies exampleFs ["A.dll", "B.dll"] ["d1", "d2", "d3"] =
      check_dependencies exampleFs2 ["A.dll", "B.dll"] ["d1", "d2", "d3"] :=
  resolver_deterministic exampleFs exampleFs2 ["A.dll", "B.dll"]
    ["d1", "d2", "d3"] (by decide)

/-- Claim C8: the rendered report is exactly the resolver's record sequence
rendered in order — one line per dependency-directory match, a single
not-found line for an empty match list, consecutive lines of one dependency
grouped — with the dependency name right-padded to the length of the longest
dependency name of the file's list. -/
theorem report_renders_resolver_output :
    ∀ (fs : Fs) (deps dirs : List String),
      check_dependencies fs deps dirs =
        ((resolve fs deps dirs).map
          (fun r => render (max_len deps) r.1 r.2)).flatten ∧
      (∀ dep ∈ deps, (padRight dep (max_len deps)).length = max_len deps) := by
  intro fs deps dirs
  refine ⟨check_eq_render fs deps dirs, ?_⟩
  intro dep h
  exact padRight_length dep _ (length_le_max_len deps dep h)

/-- Witness for C8 at a concrete input. -/
theorem report_renders_resolver_output_witness :
    check_dependencies exampleFs ["A.dll", "B.dll"] ["d1", "d2", "d3"] =
      ((resolve exampleFs ["A.dll", "B.dll"] ["d1", "d2", "d3"]).map
        (fun r => render (max_len ["A.dll", "B.dll"]) r.1 r.2)).flatten ∧
    (padRight "A.dll" (max_len ["A.dll", "B.dll"])).length =
      max_len ["A.dll", "B.dll"] :=
  ⟨(report_renders_resolver_output exampleFs ["A.dll", "B.dll"]
      ["d1", "d2", "d3"]).1,
   (report_renders_resolver_output exampleFs ["A.dll", "B.dll"]
      ["d1", "d2", "d3"]).2 "A.dll" (by decide)⟩

/-- Claim C10: whether a directory is recorded as a match for a dependency
occurrence depends only on whether the joined path names a regular file:
membership in the match list is characterized pointwise, the record of an
occurrence is unaffected by the other dependencies around it, and permuting
the directory list only permutes (never changes) the set of matches. -/
theorem match_depends_only_on_joined_entry :
    ∀ (fs : Fs) (d : String) (dirs : List String) (dir : String),
      (dir ∈ dep_matches fs d dirs ↔
        dir ∈ dirs ∧ (fs dir d).is_file = true) ∧
      (∀ deps1 deps2 : List String,
        (resolve fs (deps1 ++ d :: deps2) dirs)[deps1.length]? =
          some (d, dep_matches fs d dirs)) ∧
      (∀ dirs2, List.Perm dirs dirs2 →
        List.Perm (dep_matches fs d dirs) (dep_matches fs d dirs2)) := by
  intro fs d dirs dir
  refine ⟨?_, ?_, ?_⟩
  · simp [dep_matches, List.mem_filter]
  · intro deps1 deps2
    have hlen : deps1.length =
        (List.map (fun dep => (dep, dep_matches fs dep dirs)) deps1).length := by
      simp
    rw [resolve, List.map_append, List.map_cons, hlen,
      List.getElem?_append_right (le_refl _)]
    simp
  · intro dirs2 hperm
    exact hperm.filter _

/-- Witness for C10 at a concrete input. -/
theorem match_depends_only_on_joined_entry_witness :
    ("d1" ∈ dep_matches exampleFs "A.dll" ["d1", "d2", "d3"] ↔
      "d1" ∈ ["d1", "d2", "d3"] ∧ (exampleFs "d1" "A.dll").is_file = true) ∧
    List.Perm (dep_matches exampleFs "A.dll" ["d1", "d2", "d3"])
      (dep_matches exampleFs "A.dll" ["d3", "d2", "d1"]) :=
  ⟨(match_depends_only_on_joined_entry exampleFs "A.dll" ["d1", "d2", "d3"]
      "d1").1,
   (match_depends_only_on_joined_entry exampleFs "A.dll" ["d1", "d2", "d3"]
      "d1").2.2 ["d3", "d2", "d1"] (by decide)⟩

/-- Claim C3: an image whose headers parse but whose import directory has
virtual address 0 or size 0 parses to the empty dependency list, and a file
with no dependencies is reported on stderr as "not a dynamic executable"
while the run still ends without error. -/
theorem empty_import_directory_is_success :
    (∀ (b : List Nat) (h : Headers), parse_headers b = .ok h →
      h.import_va = 0 ∨ h.import_size = 0 → parse b = .ok []) ∧
    (∀ (w : World) (dirs : List String) (f : String),
      validate_dirs w dirs = none → validate_file w f = none →
      get_pe_dependencies w f = .ok [] →
      run w { dirs := dirs, files := [f] } =
        ([.errLine (f ++ ": not a dynamic executable")], none)) := by
  constructor
  · intro b h hh hz
    simp [parse, hh, hz]
  · intro w dirs f hv hvf hdeps
    simp [run, hv, process_files, file_step, hvf, hdeps]

set_option maxRecDepth 100000 in
/-- Witness for C3 at a concrete input: a 200-byte image with valid headers
and a zero import directory parses to no dependencies, and running on it
reports "not a dynamic executable" and returns no error. -/
theorem empty_import_directory_is_success_witness :
    parse c3bytes = .ok [] ∧
    run c3world { dirs := [], files := ["a.exe"] } =
      ([.errLine ("a.exe" ++ ": not a dynamic executable")], none) :=
  ⟨empty_import_directory_is_success.1 c3bytes
      { nsections := 0, sec_off := 88, import_va := 0, import_size := 0 }
      (by rfl) (Or.inl rfl),
   empty_import_directory_is_success.2 c3world [] "a.exe" rfl rfl (by rfl)⟩

/-- Claim C4 counterexample: the crate's error type does not distinguish the
four parse conditions as distinct variants — a missing legacy signature and a
truncated buffer are different parser conditions, yet both reach the caller
as the same `PeParseError` variant (only the message string differs). -/
theorem parse_error_single_variant :
    parse badSigBytes = .error .badSignature ∧
    parse truncBytes = .error .truncated ∧
    get_pe_dependencies errWorld "bad.exe" =
      .error (.peParseError "bad signature") ∧
    get_pe_dependencies errWorld "trunc.exe" =
      .error (.peParseError "truncated") ∧
    (WlddError.peParseError "bad signature").kind =
      (WlddError.peParseError "truncated").kind :=
  ⟨rfl, by rfl, by rfl, by rfl, rfl⟩

/-- Claim C4 as amended: the underlying parser distinguishes the four
conditions (BadSignature, Truncated, UnsupportedFormat, BadRva), but the
repository wraps every parse failure into the single
`WlddError::PeParseError` variant carrying the parser error's message
string, so the condition is identified only by message text, not by a
distinct variant of the returned error. -/
theorem parse_failures_wrapped_in_peParseError :
    ∀ (w : World) (f : String) (b : List Nat) (e : ParseError),
      w.file_bytes f = .ok b → parse b = .error e →
      get_pe_dependencies w f = .error (.peParseError e.toString) ∧
      (WlddError.peParseError e.toString).kind = .peParseError := by
  intro w f b e hb hp
  refine ⟨?_, rfl⟩
  simp [get_pe_dependencies, hb, hp]

/-- Witness for the amended C4 at a concrete input. -/
theorem parse_failures_wrapped_in_peParseError_witness :
    get_pe_dependencies errWorld "bad.exe" =
      .error (.peParseError ParseError.badSignature.toString) ∧
    (WlddError.peParseError ParseError.badSignature.toString).kind =
      .peParseError :=
  parse_failures_wrapped_in_peParseError errWorld "bad.exe" badSigBytes
    .badSignature rfl rfl

/-- Claim C6: every search directory is validated before any input file is
touched — if any listed directory fails validation, the run produces no
output, returns an `InvalidDirectory` error, and its result does not depend
on the file list at all (no file is validated, parsed, or resolved). -/
theorem dirs_checked_before_files :
    ∀ (w : World) (dirs files files2 : List String) (d : String),
      d ∈ dirs → validate_dir w d ≠ none →
      run w { dirs := dirs, files := files } =
        run w { dirs := dirs, files := files2 } ∧
      (run w { dirs := dirs, files := files }).1 = [] ∧
      (run w { dirs := dirs, files := files }).2.map WlddError.kind =
        some .invalidDirectory := by
  intro w dirs files files2 d hmem hfail
  have h := validate_dirs_fail w dirs d hmem hfail
  match hv : validate_dirs w dirs with
  | some e =>
    rw [hv] at h
    simp [run, hv, h]
  | none =>
    rw [hv] at h
    simp at h

/-- Witness for C6 at a concrete input: with the nonexistent search directory
"x", the run ignores the file list, prints nothing, and fails with
`InvalidDirectory`. -/
theorem dirs_checked_before_files_witness :
    run badDirWorld { dirs := ["x"], files := ["f.exe"] } =
      run badDirWorld { dirs := ["x"], files := ["g.exe"] } ∧
    (run badDirWorld { dirs := ["x"], files := ["f.exe"] }).1 = [] ∧
    (run badDirWorld { dirs := ["x"], files := ["f.exe"] }).2.map
      WlddError.kind = some .invalidDirectory :=
  dirs_checked_before_files badDirWorld ["x"] ["f.exe"] ["g.exe"] "x"
    (by decide) (by decide)

/-- Claim C9: if validation, opening, or parsing of a file fails, `run`
returns that error immediately — the output is exactly that of the earlier
files, and the files after the failing one are never validated, parsed, or
resolved (the result is the same for any tail). -/
theorem run_stops_at_first_file_error :
    ∀ (w : World) (dirs pre : List String) (f : String)
      (rest rest2 : List String) (e : WlddError),
      validate_dirs w dirs = none →
      (∀ g ∈ pre, ∃ ds, file_step w g = .ok ds) →
      file_step w f = .error e →
      run w { dirs := dirs, files := pre ++ f :: rest } =
        ((process_files w dirs pre).1, some e) ∧
      run w { dirs := dirs, files := pre ++ f :: rest } =
        run w { dirs := dirs, files := pre ++ f :: rest2 } := by
  intro w dirs pre f rest rest2 e hv hok hf
  have h1 := process_files_stops w dirs pre f rest e hok hf
  have h2 := process_files_stops w dirs pre f rest2 e hok hf
  simp [run, hv, h1, h2]

set_option maxRecDepth 100000 in
/-- Witness for C9 at a concrete input: after one successfully processed
file, a missing second file aborts the run with its `FileError`, and the
third file is never reached (any tail gives the same result). -/
theorem run_stops_at_first_file_error_witness :
    run abortWorld
      { dirs := [], files := ["ok.exe"] ++ "bad.exe" :: ["never.exe"] } =
      ((process_files abortWorld [] ["ok.exe"]).1,
        some (.fileError ("bad.exe" ++ ": No such file or directory"))) ∧
    run abortWorld
      { dirs := [], files := ["ok.exe"] ++ "bad.exe" :: ["never.exe"] } =
      run abortWorld { dirs := [], files := ["ok.exe"] ++ "bad.exe" :: [] } :=
  run_stops_at_first_file_error abortWorld [] ["ok.exe"] "bad.exe"
    ["never.exe"] [] (.fileError ("bad.exe" ++ ": No such file or directory"))
    rfl
    (by
      intro g hg
      rcases List.mem_singleton.mp hg with h1
      subst h1
      exact ⟨[], by rfl⟩)
    (by rfl)

end Wldd
